import Mathlib

/-!
Verification of the D2Q9 lattice-Boltzmann lid-driven-cavity solver
`src/simulators/parallel_lid_drive_cavity/cavity_opt1.py`.

Arrays are embedded as total functions: a distribution array `f_ikl` becomes
`f : ℕ → ℕ → ℕ → ℚ` (channel, x, y) together with explicit extents `nx ny`;
all numpy arithmetic in the script is elementwise, so it is modelled
pointwise over exact rationals.  Channel indices follow the script's
`IntEnum` `D` (E=1, N=2, W=3, S=4, NE=5, NW=6, SW=7, SE=8; 0 is the rest
channel).  In-place slice assignments such as `f[D.N, :, 0] = v` are
modelled as functional updates (`setRow`, `setCol`, `setCell`) applied in
the source's textual order, with the python index `-1` rendered as
`nx - 1` / `ny - 1`.
-/

namespace Cavity

/-- Distribution array: channel index, x index, y index. -/
abbrev GridF := ℕ → ℕ → ℕ → ℚ

/-! Channel direction constants, from `D = IntEnum('D', 'E N W S NE NW SW SE')`. -/

def D_E : ℕ := 1
def D_N : ℕ := 2
def D_W : ℕ := 3
def D_S : ℕ := 4
def D_NE : ℕ := 5
def D_NW : ℕ := 6
def D_SW : ℕ := 7
def D_SE : ℕ := 8

/-- x components of the channel velocities `c_ic` (first row of the source array). -/
def c_x (i : ℕ) : ℤ :=
  if i = 1 ∨ i = 5 ∨ i = 8 then 1 else if i = 3 ∨ i = 6 ∨ i = 7 then -1 else 0

/-- y components of the channel velocities `c_ic` (second row of the source array). -/
def c_y (i : ℕ) : ℤ :=
  if i = 2 ∨ i = 5 ∨ i = 6 then 1 else if i = 4 ∨ i = 7 ∨ i = 8 then -1 else 0

/-! Weight factors `w_0`, `w_1234`, `w_5678`, `w_i`. -/

def w_0 : ℚ := 4 / 9
def w_1234 : ℚ := 1 / 9
def w_5678 : ℚ := 1 / 36

/-- The weight array `w_i = [w_0, w_1234*4, w_5678*4]`, as a function of the
channel index (0 outside the 9 channels). -/
def w_i (i : ℕ) : ℚ :=
  if i = 0 then w_0 else if i ≤ 4 then w_1234 else if i ≤ 8 then w_5678 else 0

/-- Per-cell equilibrium distribution from the source's `equilibrium`:
the nine explicitly written-out channel expressions, with
`cu5 = ux+uy`, `cu6 = -ux+uy`, `cu7 = -ux-uy`, `cu8 = ux-uy`,
`uu = ux**2 + uy**2`. -/
def equilibrium (rho ux uy : ℚ) (i : ℕ) : ℚ :=
  let cu5 := ux + uy
  let cu6 := -ux + uy
  let cu7 := -ux - uy
  let cu8 := ux - uy
  let uu := ux ^ 2 + uy ^ 2
  if i = 0 then w_0 * rho * (1 - 3/2 * uu)
  else if i = 1 then w_1234 * rho * (1 + 3 * ux + 9/2 * ux ^ 2 - 3/2 * uu)
  else if i = 2 then w_1234 * rho * (1 + 3 * uy + 9/2 * uy ^ 2 - 3/2 * uu)
  else if i = 3 then w_1234 * rho * (1 - 3 * ux + 9/2 * ux ^ 2 - 3/2 * uu)
  else if i = 4 then w_1234 * rho * (1 - 3 * uy + 9/2 * uy ^ 2 - 3/2 * uu)
  else if i = 5 then w_5678 * rho * (1 + 3 * cu5 + 9/2 * cu5 ^ 2 - 3/2 * uu)
  else if i = 6 then w_5678 * rho * (1 + 3 * cu6 + 9/2 * cu6 ^ 2 - 3/2 * uu)
  else if i = 7 then w_5678 * rho * (1 + 3 * cu7 + 9/2 * cu7 ^ 2 - 3/2 * uu)
  else if i = 8 then w_5678 * rho * (1 + 3 * cu8 + 9/2 * cu8 ^ 2 - 3/2 * uu)
  else 0

/-- `equilibrium` applied to whole fields (the numpy expressions are elementwise). -/
def equilibriumG (rho ux uy : ℕ → ℕ → ℚ) : GridF :=
  fun i k l => equilibrium (rho k l) (ux k l) (uy k l) i

/-- Per-cell collision step from the source's `collide`:
`rho = sum(f)`, `ux`, `uy` the first moments divided by `rho`, and the
in-place update `f += omega*(equilibrium(rho, ux, uy) - f)`. -/
def collide (f : ℕ → ℚ) (omega : ℚ) : ℕ → ℚ :=
  let rho := ∑ j ∈ Finset.range 9, f j
  let ux := (f 1 - f 3 + f 5 - f 6 - f 7 + f 8) / rho
  let uy := (f 2 - f 4 + f 5 + f 6 - f 7 - f 8) / rho
  fun i => f i + omega * (equilibrium rho ux uy i - f i)

/-- `collide` applied to a whole distribution array (elementwise per cell). -/
def collideG (f : GridF) (omega : ℚ) : GridF :=
  fun i k l => collide (fun j => f j k l) omega i

/-- The zeroth moment of the equilibrium distribution is the input density:
the nine channel expressions of `equilibrium` sum to `rho` for arbitrary
`ux`, `uy`. -/
lemma sum_equilibrium (rho ux uy : ℚ) :
    ∑ i ∈ Finset.range 9, equilibrium rho ux uy i = rho := by
  simp [Finset.sum_range_succ, equilibrium, w_0, w_1234, w_5678]
  ring

/-- C1: for every 9-channel distribution array `f` and every relaxation rate
`ω`, `collide` leaves the per-cell zeroth moment unchanged: at every cell the
sum over the 9 channels after the call equals the sum before the call
(exactly, over exact rational arithmetic). -/
theorem collide_mass_conserved (f : GridF) (omega : ℚ) (k l : ℕ) :
    ∑ i ∈ Finset.range 9, collideG f omega i k l
      = ∑ i ∈ Finset.range 9, f i k l := by
  simp only [collideG, collide]
  rw [Finset.sum_add_distrib, ← Finset.mul_sum, Finset.sum_sub_distrib,
    sum_equilibrium]
  ring

/-- C2: the 9 channels returned by `equilibrium(rho, ux, uy)` sum, at every
cell, to `rho` at that cell (exactly, over exact rational arithmetic); and for
`rho = 1`, `ux = uy = 0` the result equals the weight vector
`(4/9, 1/9, 1/9, 1/9, 1/9, 1/36, 1/36, 1/36, 1/36)` at every cell. -/
theorem equilibrium_sum_and_weights :
    (∀ (rho ux uy : ℕ → ℕ → ℚ) (k l : ℕ),
      ∑ i ∈ Finset.range 9, equilibriumG rho ux uy i k l = rho k l) ∧
    (∀ (k l i : ℕ), i < 9 →
      equilibriumG (fun _ _ => 1) (fun _ _ => 0) (fun _ _ => 0) i k l = w_i i) := by
  constructor
  · intro rho ux uy k l
    simpa [equilibriumG] using sum_equilibrium (rho k l) (ux k l) (uy k l)
  · intro k l i hi
    interval_cases i <;>
      norm_num [equilibriumG, equilibrium, w_i, w_0, w_1234, w_5678]

/-- Witness for C2: the weight-vector part at channel 5 and cell (0, 0). -/
theorem equilibrium_sum_and_weights_witness :
    (5 : ℕ) < 9 ∧
    equilibriumG (fun _ _ => 1) (fun _ _ => 0) (fun _ _ => 0) 5 0 0 = w_i 5 :=
  ⟨by decide, equilibrium_sum_and_weights.2 0 0 5 (by decide)⟩

/-! ## Streaming -/

/-- Wrap-around index: the element of a numpy `roll` result at position `z`
(as an integer) on an axis of extent `n`. -/
def wrap (n : ℕ) (z : ℤ) : ℕ := (z % (n : ℤ)).toNat

/-- The source's `stream`: for channels 1..8, circularly shift the channel's
2D occupation grid by its velocity vector (`np.roll(f_ikl[i], c_ic[i],
axis=(0, 1))`, so the value at `(k, l)` comes from `(k - c_x i, l - c_y i)`
modulo the extents).  Channel 0 is untouched. -/
def stream (nx ny : ℕ) (f : GridF) : GridF := fun i k l =>
  if 1 ≤ i ∧ i ≤ 8 then
    f i (wrap nx ((k : ℤ) - c_x i)) (wrap ny ((l : ℤ) - c_y i))
  else f i k l

/-- Inverse shift named by the spec sentence behind C8: circularly shift each
non-rest channel by the negated velocity vector (so the value at `(k, l)`
comes from `(k + c_x i, l + c_y i)` modulo the extents). -/
def inverse_stream (nx ny : ℕ) (f : GridF) : GridF := fun i k l =>
  if 1 ≤ i ∧ i ≤ 8 then
    f i (wrap nx ((k : ℤ) + c_x i)) (wrap ny ((l : ℤ) + c_y i))
  else f i k l

/-- Shifting an in-range index by `c` and back modulo `n` is the identity. -/
lemma wrap_add_sub_cancel (n k : ℕ) (hk : k < n) (c : ℤ) :
    wrap n ((wrap n ((k : ℤ) + c) : ℤ) - c) = k := by
  have hn : (0 : ℤ) < (n : ℤ) := by exact_mod_cast (by omega : 0 < n)
  have hcast : ((wrap n ((k : ℤ) + c) : ℕ) : ℤ) = ((k : ℤ) + c) % (n : ℤ) := by
    unfold wrap
    exact Int.toNat_of_nonneg (Int.emod_nonneg _ (by omega))
  rw [show wrap n ((wrap n ((k : ℤ) + c) : ℕ) - c)
      = ((((wrap n ((k : ℤ) + c) : ℕ) : ℤ) - c) % (n : ℤ)).toNat from rfl]
  rw [hcast, Int.emod_def ((k : ℤ) + c) (n : ℤ)]
  have : (k : ℤ) + c - (n : ℤ) * (((k : ℤ) + c) / (n : ℤ)) - c
      = (k : ℤ) + (n : ℤ) * (-(((k : ℤ) + c) / (n : ℤ))) := by ring
  rw [this, Int.add_mul_emod_self_left, Int.emod_eq_of_lt (by omega) (by omega)]
  exact Int.toNat_natCast k

/-- C8: applying `stream` and then the inverse shift by the negated velocity
set restores the array exactly at every channel and every in-range cell. -/
theorem stream_inverse_roundtrip (nx ny : ℕ) (f : GridF) (i k l : ℕ)
    (hk : k < nx) (hl : l < ny) :
    inverse_stream nx ny (stream nx ny f) i k l = f i k l := by
  by_cases hch : 1 ≤ i ∧ i ≤ 8
  · simp only [inverse_stream, stream, if_pos hch]
    rw [wrap_add_sub_cancel nx k hk (c_x i), wrap_add_sub_cancel ny l hl (c_y i)]
  · simp only [inverse_stream, stream, if_neg hch]

/-- Witness for C8 at a concrete array, channel and cell. -/
theorem stream_inverse_roundtrip_witness :
    (1 : ℕ) < 2 ∧ (0 : ℕ) < 2 ∧
    inverse_stream 2 2 (stream 2 2 (fun i k l => ((100 * i + 10 * k + l : ℕ) : ℚ))) 5 1 0
      = (fun i k l => ((100 * i + 10 * k + l : ℕ) : ℚ)) 5 1 0 :=
  ⟨by decide, by decide,
    stream_inverse_roundtrip 2 2 (fun i k l => ((100 * i + 10 * k + l : ℕ) : ℚ))
      5 1 0 (by decide) (by decide)⟩

/-! ## Boundary condition applier -/

/-- Slice assignment `a[i, :, l0] = v` (whole row of one channel). -/
def setRow (a : GridF) (i l0 : ℕ) (v : ℕ → ℚ) : GridF := fun j k l =>
  if j = i ∧ l = l0 then v k else a j k l

/-- Slice assignment `a[i, k0, :] = v` (whole column of one channel). -/
def setCol (a : GridF) (i k0 : ℕ) (v : ℕ → ℚ) : GridF := fun j k l =>
  if j = i ∧ k = k0 then v l else a j k l

/-- Single-element assignment `a[i, k0, l0] = v`. -/
def setCell (a : GridF) (i k0 l0 : ℕ) (v : ℚ) : GridF := fun j k l =>
  if j = i ∧ k = k0 ∧ l = l0 then v else a j k l

/-- The source's `stream_and_bounce_back`: snapshot the four boundary layers,
stream, then apply the bottom/top/left/right wall overrides and the four
corner overrides in the source's textual order.  The `if True:` block of the
source (left/right walls and corners) is included.  Python index `-1` is
`nx - 1` resp. `ny - 1`. -/
def stream_and_bounce_back (nx ny : ℕ) (f : GridF) (u0 : ℚ) : GridF :=
  let fbottom := fun (i k : ℕ) => f i k 0
  let ftop := fun (i k : ℕ) => f i k (ny - 1)
  let fleft := fun (i l : ℕ) => f i 0 l
  let fright := fun (i l : ℕ) => f i (nx - 1) l
  let g := stream nx ny f
  -- Bottom boundary
  let g := setRow g D_N 0 (fun k => fbottom D_S k)
  let g := setRow g D_NE 0 (fun k => fbottom D_SW k)
  let g := setRow g D_NW 0 (fun k => fbottom D_SE k)
  -- Top boundary - sliding lid; rho computed *after* bounce back
  let rhobottom := fun k =>
    ftop D_NW k + ftop D_N k + ftop D_NE k
      + g D_NW k (ny - 1) + g D_N k (ny - 1) + g D_NE k (ny - 1)
      + g D_W k (ny - 1) + g 0 k (ny - 1) + g D_E k (ny - 1)
  let g := setRow g D_S (ny - 1) (fun k => ftop D_N k)
  let g := setRow g D_SE (ny - 1)
    (fun k => ftop D_NW k + 6 * w_i D_SE * rhobottom k * u0)
  let g := setRow g D_SW (ny - 1)
    (fun k => ftop D_NE k - 6 * w_i D_SW * rhobottom k * u0)
  -- Left boundary
  let g := setCol g D_E 0 (fun l => fleft D_W l)
  let g := setCol g D_NE 0 (fun l => fleft D_SW l)
  let g := setCol g D_SE 0 (fun l => fleft D_NW l)
  -- Right boundary
  let g := setCol g D_W (nx - 1) (fun l => fright D_E l)
  let g := setCol g D_NW (nx - 1) (fun l => fright D_SE l)
  let g := setCol g D_SW (nx - 1) (fun l => fright D_NE l)
  -- Bottom-left corner
  let g := setCell g D_N 0 0 (fbottom D_S 0)
  let g := setCell g D_E 0 0 (fbottom D_W 0)
  let g := setCell g D_NE 0 0 (fbottom D_SW 0)
  -- Bottom-right corner
  let g := setCell g D_N (nx - 1) 0 (fbottom D_S (nx - 1))
  let g := setCell g D_W (nx - 1) 0 (fbottom D_E (nx - 1))
  let g := setCell g D_NW (nx - 1) 0 (fbottom D_SE (nx - 1))
  -- Top-left corner
  let g := setCell g D_S 0 (ny - 1) (ftop D_N 0)
  let g := setCell g D_E 0 (ny - 1) (ftop D_W 0)
  let g := setCell g D_SE 0 (ny - 1) (ftop D_NW 0)
  -- Top-right corner
  let g := setCell g D_S (nx - 1) (ny - 1) (ftop D_N (nx - 1))
  let g := setCell g D_W (nx - 1) (ny - 1) (ftop D_E (nx - 1))
  let g := setCell g D_SW (nx - 1) (ny - 1) (ftop D_NE (nx - 1))
  g

/-- A concrete all-ones distribution array, for concrete evaluations. -/
def fOnes : GridF := fun _ _ _ => 1

/-- A concrete distribution array with pairwise distinct entries on small
grids, for concrete evaluations. -/
def fProbe : GridF := fun i k l => ((100 * i + 10 * k + l : ℕ) : ℚ)

/-- The wall density named by C3: the sum of the pre-stream values of
channels NW, N, NE and the post-stream values of channels NW, N, NE, W,
rest, E at a top-row cell. -/
def rhoWallSpec (nx ny : ℕ) (f : GridF) (k : ℕ) : ℚ :=
  f D_NW k (ny - 1) + f D_N k (ny - 1) + f D_NE k (ny - 1)
    + stream nx ny f D_NW k (ny - 1) + stream nx ny f D_N k (ny - 1)
    + stream nx ny f D_NE k (ny - 1) + stream nx ny f D_W k (ny - 1)
    + stream nx ny f 0 k (ny - 1) + stream nx ny f D_E k (ny - 1)

/-- C3 (amended): at every non-corner cell of the top row (`1 ≤ x ≤ nx - 2`),
for arrays with at least two rows, `stream_and_bounce_back` sets channel S to
the pre-stream channel N, channel SE to the pre-stream channel NW plus
`6 * w_SE * rho_wall * u0`, and channel SW to the pre-stream channel NE minus
`6 * w_SW * rho_wall * u0`, with `rho_wall` as in `rhoWallSpec`.  (At the two
corner cells of the top row the corner overrides replace SE resp. SW without
the lid correction, see the counterexample.) -/
theorem lid_top_row_formulas (nx ny : ℕ) (f : GridF) (u0 : ℚ) (x : ℕ)
    (hx1 : 1 ≤ x) (hx2 : x + 2 ≤ nx) (hny : 2 ≤ ny) :
    stream_and_bounce_back nx ny f u0 D_S x (ny - 1) = f D_N x (ny - 1) ∧
    stream_and_bounce_back nx ny f u0 D_SE x (ny - 1)
      = f D_NW x (ny - 1) + 6 * w_i D_SE * rhoWallSpec nx ny f x * u0 ∧
    stream_and_bounce_back nx ny f u0 D_SW x (ny - 1)
      = f D_NE x (ny - 1) - 6 * w_i D_SW * rhoWallSpec nx ny f x * u0 := by
  have h0 : x ≠ 0 := by omega
  have h1 : x ≠ nx - 1 := by omega
  have h2 : ny - 1 ≠ 0 := by omega
  refine ⟨?_, ?_, ?_⟩ <;>
    simp [stream_and_bounce_back, rhoWallSpec, setRow, setCol, setCell,
      D_E, D_N, D_W, D_S, D_NE, D_NW, D_SW, D_SE, h0, h1, h2]

/-- Witness for C3 (amended) at a concrete array and cell. -/
theorem lid_top_row_formulas_witness :
    (1 : ℕ) ≤ 1 ∧ 1 + 2 ≤ 3 ∧ (2 : ℕ) ≤ 2 ∧
    (stream_and_bounce_back 3 2 fProbe 1 D_S 1 (2 - 1) = fProbe D_N 1 (2 - 1) ∧
     stream_and_bounce_back 3 2 fProbe 1 D_SE 1 (2 - 1)
       = fProbe D_NW 1 (2 - 1) + 6 * w_i D_SE * rhoWallSpec 3 2 fProbe 1 * 1 ∧
     stream_and_bounce_back 3 2 fProbe 1 D_SW 1 (2 - 1)
       = fProbe D_NE 1 (2 - 1) - 6 * w_i D_SW * rhoWallSpec 3 2 fProbe 1 * 1) :=
  ⟨by decide, by decide, by decide,
    lid_top_row_formulas 3 2 fProbe 1 1 (by decide) (by decide) (by decide)⟩

/-- Counterexample to C3 as stated: on a 2x2 all-ones array with `u0 = 1`,
the top-left cell of the top row gets channel SE from the corner override
(pre-stream NW, value 1) and not from the lid formula
(`1 + 6 * (1/36) * 9 * 1 = 5/2`). -/
theorem lid_corner_counterexample :
    stream_and_bounce_back 2 2 fOnes 1 D_SE 0 (2 - 1)
      ≠ fOnes D_NW 0 (2 - 1) + 6 * w_i D_SE * rhoWallSpec 2 2 fOnes 0 * 1 := by
  norm_num [stream_and_bounce_back, rhoWallSpec, stream, wrap, setRow, setCol,
    setCell, fOnes, w_i, w_0, w_1234, w_5678, c_x, c_y,
    D_E, D_N, D_W, D_S, D_NE, D_NW, D_SW, D_SE]

/-- C4 (amended): every write of `stream_and_bounce_back` beyond plain
streaming lands on one of the four edge layers of the local array; every
cell with `0 < k < nx - 1` and `0 < l < ny - 1` is identical to what plain
streaming alone produces.  (The operator itself has no neighbor information
and applies wall overrides at all four local edges unconditionally, and the
main loop invokes it on every process; at an inter-process edge the
overrides do rewrite the edge (ghost) layer, see the counterexample.) -/
theorem bounce_back_interior_frame (nx ny : ℕ) (f : GridF) (u0 : ℚ)
    (i k l : ℕ)
    (hk0 : 0 < k) (hk1 : k + 1 < nx) (hl0 : 0 < l) (hl1 : l + 1 < ny) :
    stream_and_bounce_back nx ny f u0 i k l = stream nx ny f i k l := by
  have h1 : k ≠ 0 := by omega
  have h2 : k ≠ nx - 1 := by omega
  have h3 : l ≠ 0 := by omega
  have h4 : l ≠ ny - 1 := by omega
  simp [stream_and_bounce_back, setRow, setCol, setCell, h1, h2, h3, h4]

/-- Witness for C4 (amended) at a concrete array, channel and interior cell. -/
theorem bounce_back_interior_frame_witness :
    (0 : ℕ) < 1 ∧ 1 + 1 < 3 ∧
    stream_and_bounce_back 3 3 fProbe 5 7 1 1 = stream 3 3 fProbe 7 1 1 :=
  ⟨by decide, by decide,
    bounce_back_interior_frame 3 3 fProbe 5 7 1 1
      (by decide) (by decide) (by decide) (by decide)⟩

/-- Counterexample to C4 as stated: `stream_and_bounce_back` does not leave
edge layers identical to plain streaming.  On a 3x3 array, at the bottom-edge
cell (1, 0), channel N is overridden by bounce-back (pre-stream channel S,
value 410) while plain streaming would give 212 - and the operator behaves
this way at every edge, including edges that abut a neighboring process. -/
theorem bounce_back_edge_counterexample :
    stream_and_bounce_back 3 3 fProbe 0 D_N 1 0 ≠ stream 3 3 fProbe D_N 1 0 := by
  norm_num [stream_and_bounce_back, stream, wrap, setRow, setCol, setCell,
    fProbe, c_x, c_y, D_E, D_N, D_W, D_S, D_NE, D_NW, D_SW, D_SE]
  rw [show Int.toNat 2 = 2 from rfl]
  norm_num

/-- C10: `stream_and_bounce_back` never modifies the rest channel: channel 0
is identical at every cell before and after the call (streaming shifts only
channels 1-8, and every override writes only to channels 1-8). -/
theorem bounce_back_rest_channel_frame (nx ny : ℕ) (f : GridF) (u0 : ℚ)
    (k l : ℕ) :
    stream_and_bounce_back nx ny f u0 0 k l = f 0 k l := by
  simp [stream_and_bounce_back, stream, setRow, setCol, setCell,
    D_E, D_N, D_W, D_S, D_NE, D_NW, D_SW, D_SE]

/-! ## Halo exchanger, two-process decompositions

`communicate` performs four paired `Sendrecv` phases in order: send to left,
send to right, send to bottom, send to top.  A `Sendrecv` whose destination
is `MPI.PROC_NULL` sends nothing, and one whose source is `MPI.PROC_NULL`
completes without touching the receive buffer; since the receive buffer is
initialised with a copy of the layer it is written back to, such a phase
leaves the array unchanged.  For a 2x1 process grid only the two x-phases
act; for a 1x2 grid only the two y-phases act. -/

/-- Layer assignment `a[:, k0, :] = v` (all channels of one column). -/
def setLayerX (a : GridF) (k0 : ℕ) (v : ℕ → ℕ → ℚ) : GridF := fun i k l =>
  if k = k0 then v i l else a i k l

/-- Layer assignment `a[:, :, l0] = v` (all channels of one row). -/
def setLayerY (a : GridF) (l0 : ℕ) (v : ℕ → ℕ → ℚ) : GridF := fun i k l =>
  if l = l0 then v i k else a i k l

/-- Both processes of a 2x1 decomposition executing `communicate` once.
Process 0 is the left process with `n0` columns, process 1 the right one.
Phase "send to left": process 1 sends its column 1 to process 0, received
into process 0's column `n0 - 1`; process 1's own receive (from
`MPI.PROC_NULL`) leaves its array unchanged.  Phase "send to right":
process 0 sends its column `n0 - 2` to process 1, received into process 1's
column 0.  The two y-phases have no neighbors and change nothing. -/
def communicate2x (n0 : ℕ) (f0 f1 : GridF) : GridF × GridF :=
  let f0a := setLayerX f0 (n0 - 1) (fun i l => f1 i 1 l)
  let f1a := setLayerX f1 0 (fun i l => f0a i (n0 - 2) l)
  (f0a, f1a)

/-- Both processes of a 1x2 decomposition executing `communicate` once.
Process 0 is the bottom process with `m0` rows, process 1 the top one.
The two x-phases have no neighbors and change nothing; then "send to
bottom": process 1 sends its row 1 to process 0, received into process 0's
row `m0 - 1`; "send to top": process 0 sends its row `m0 - 2` to process 1,
received into process 1's row 0. -/
def communicate2y (m0 : ℕ) (f0 f1 : GridF) : GridF × GridF :=
  let f0a := setLayerY f0 (m0 - 1) (fun i k => f1 i k 1)
  let f1a := setLayerY f1 0 (fun i k => f0a i k (m0 - 2))
  (f0a, f1a)

/-- C9: in a 2-process decomposition (2x1 or 1x2), after both processes
complete one `communicate`, each process's ghost layer facing its neighbor
equals the layer one-in-from the facing edge of the neighbor's pre-exchange
array (all channels), and every other cell of both arrays is unchanged. -/
theorem communicate_two_process_halo (n0 m0 : ℕ) (f0 f1 g0 g1 : GridF)
    (hn : 2 ≤ n0) (hm : 2 ≤ m0) :
    ((∀ i l, (communicate2x n0 f0 f1).1 i (n0 - 1) l = f1 i 1 l) ∧
     (∀ i l, (communicate2x n0 f0 f1).2 i 0 l = f0 i (n0 - 2) l) ∧
     (∀ i k l, k ≠ n0 - 1 → (communicate2x n0 f0 f1).1 i k l = f0 i k l) ∧
     (∀ i k l, k ≠ 0 → (communicate2x n0 f0 f1).2 i k l = f1 i k l)) ∧
    ((∀ i k, (communicate2y m0 g0 g1).1 i k (m0 - 1) = g1 i k 1) ∧
     (∀ i k, (communicate2y m0 g0 g1).2 i k 0 = g0 i k (m0 - 2)) ∧
     (∀ i k l, l ≠ m0 - 1 → (communicate2y m0 g0 g1).1 i k l = g0 i k l) ∧
     (∀ i k l, l ≠ 0 → (communicate2y m0 g0 g1).2 i k l = g1 i k l)) := by
  have hx : n0 - 2 ≠ n0 - 1 := by omega
  have hy : m0 - 2 ≠ m0 - 1 := by omega
  refine ⟨⟨?_, ?_, ?_, ?_⟩, ⟨?_, ?_, ?_, ?_⟩⟩ <;> intros <;>
    simp_all [communicate2x, communicate2y, setLayerX, setLayerY]

/-- Witness for C9 on concrete 2-column and 2-row arrays. -/
theorem communicate_two_process_halo_witness :
    (2 : ℕ) ≤ 2 ∧
    (((∀ i l, (communicate2x 2 fProbe fOnes).1 i (2 - 1) l = fOnes i 1 l) ∧
      (∀ i l, (communicate2x 2 fProbe fOnes).2 i 0 l = fProbe i (2 - 2) l) ∧
      (∀ i k l, k ≠ 2 - 1 → (communicate2x 2 fProbe fOnes).1 i k l = fProbe i k l) ∧
      (∀ i k l, k ≠ 0 → (communicate2x 2 fProbe fOnes).2 i k l = fOnes i k l)) ∧
     ((∀ i k, (communicate2y 2 fOnes fProbe).1 i k (2 - 1) = fProbe i k 1) ∧
      (∀ i k, (communicate2y 2 fOnes fProbe).2 i k 0 = fOnes i k (2 - 2)) ∧
      (∀ i k l, l ≠ 2 - 1 → (communicate2y 2 fOnes fProbe).1 i k l = fOnes i k l) ∧
      (∀ i k l, l ≠ 0 → (communicate2y 2 fOnes fProbe).2 i k l = fProbe i k l))) :=
  ⟨by decide,
    communicate_two_process_halo 2 2 fProbe fOnes fOnes fProbe
      (by decide) (by decide)⟩

/-! ## Grid partitioner -/

/-- Owned extent along one axis: `g div p` for each of the first `p - 1`
processes (those with a right/top neighbor) and `g - (g div p) * (p - 1)`
for the last one, from the source's `local_nx`/`local_ny` setup. -/
def owned_n (g p r : ℕ) : ℕ :=
  if r = p - 1 then g - g / p * (p - 1) else g / p

/-- C6: for every global extent `g ≥ 1` and process count `p ≥ 1` along an
axis, the owned extents assigned by the partitioner sum to exactly `g`,
including when `g` is not divisible by `p`. -/
theorem owned_extents_sum (g p : ℕ) (hg : 1 ≤ g) (hp : 1 ≤ p) :
    ∑ r ∈ Finset.range p, owned_n g p r = g := by
  obtain ⟨q, rfl⟩ : ∃ q, p = q + 1 := ⟨p - 1, by omega⟩
  rw [Finset.sum_range_succ]
  have hconst : ∀ r ∈ Finset.range q, owned_n g (q + 1) r = g / (q + 1) := by
    intro r hr
    have : r ≠ q := by
      have := Finset.mem_range.mp hr
      omega
    simp [owned_n, this]
  rw [Finset.sum_congr rfl hconst, Finset.sum_const, Finset.card_range,
    smul_eq_mul, owned_n]
  simp only [Nat.add_sub_cancel, if_pos rfl]
  have hle : g / (q + 1) * q ≤ g :=
    le_trans (Nat.mul_le_mul_left _ (by omega)) (Nat.div_mul_le_self g (q + 1))
  rw [mul_comm]
  exact Nat.add_sub_cancel' hle

/-- Witness for C6: the spec's own example `g = 10`, `p = 3`. -/
theorem owned_extents_sum_witness :
    (1 : ℕ) ≤ 10 ∧ (1 : ℕ) ≤ 3 ∧ ∑ r ∈ Finset.range 3, owned_n 10 3 r = 10 :=
  ⟨by decide, by decide, owned_extents_sum 10 3 (by decide) (by decide)⟩

/-- One axis of the partitioner, following the source statement by
statement: `hasHigh` is `right_dst >= 0` (resp. `top_dst >= 0`), `hasLow`
is `left_dst >= 0` (resp. `bottom_dst >= 0`).  `localN` is the final
`local_nx`; `sliceStart`/`sliceStop` are the fields of `without_ghosts_x`
as assigned (the slice is rebound to `slice(1, local_nx + 1)` inside the
`hasLow` branch, after both ghost increments). -/
structure AxisLayout where
  localN : ℕ
  sliceStart : ℕ
  sliceStop : ℕ
deriving DecidableEq

def axisLayout (g d : ℕ) (hasHigh hasLow : Bool) : AxisLayout :=
  let l0 := g / d
  let l1 := if hasHigh then l0 else g - l0 * (d - 1)
  let stop0 := l1
  let l2 := if hasHigh then l1 + 1 else l1
  let l3 := if hasLow then l2 + 1 else l2
  let start1 := if hasLow then 1 else 0
  let stop1 := if hasLow then l3 + 1 else stop0
  ⟨l3, start1, stop1⟩

/-- Number of cells a python slice `start:stop` selects from an axis of
extent `n` (indices are clamped to the extent). -/
def sliceSpan (n start stop : ℕ) : ℕ := min stop n - min start n

/-- C7 evaluated at the failing input: for the middle process of a
3-process axis over a global extent of 9 (both neighbors present), the
local extent is owned + 2 and the owned slice starts at 1 as claimed, but
`without_ghosts` is `slice(1, 6)` over a 5-cell axis and therefore spans 4
cells - the owned extent 3 plus the high-side ghost cell. -/
theorem owned_slice_span_eval :
    axisLayout 9 3 true true = ⟨5, 1, 6⟩ ∧
    owned_n 9 3 1 = 3 ∧
    sliceSpan (axisLayout 9 3 true true).localN
      (axisLayout 9 3 true true).sliceStart
      (axisLayout 9 3 true true).sliceStop = 4 := by
  decide

/-! ## Final snapshot write -/

/-- The module-level names bound by `cavity_opt1.py` once the main loop has
finished (imports, parameters, lattice constants, the five functions, the
MPI topology values, the partition values, and the arrays left over from
the last loop iteration).  Python builtins are not module bindings and
`u_ckl` is assigned nowhere in the file. -/
def moduleGlobals : List String :=
  ["sys", "D", "MPI", "np", "save_mpiio",
   "ndx", "ndy", "nx", "ny", "dtype", "nsteps", "dump_freq", "omega",
   "c_ic", "w_0", "w_1234", "w_5678", "w_i",
   "equilibrium", "collide", "stream", "stream_and_bounce_back", "communicate",
   "size", "rank", "comm",
   "left_src", "left_dst", "right_src", "right_dst",
   "bottom_src", "bottom_dst", "top_src", "top_dst",
   "local_nx", "local_ny", "without_ghosts_x", "without_ghosts_y",
   "mpix", "mpiy", "f_ikl", "i", "rho_kl", "ux_kl", "uy_kl"]

/-- The array names the two post-loop `save_mpiio` calls read (source lines
351-352 index `u_ckl[0, ...]` and `u_ckl[1, ...]`). -/
def finalDumpArrayNames : List String := ["u_ckl", "u_ckl"]

/-- C5 evaluated at the failing input: the final dump reads `u_ckl`, a name
the module never binds (the opt1 header states the velocity field was split
into `ux_kl` and `uy_kl`), so the post-loop write raises `NameError`
instead of persisting the final `ux_kl`/`uy_kl` fields, which are bound
and available. -/
theorem final_dump_reads_undefined_name :
    "u_ckl" ∈ finalDumpArrayNames ∧ "u_ckl" ∉ moduleGlobals ∧
    "ux_kl" ∈ moduleGlobals ∧ "uy_kl" ∈ moduleGlobals := by
  decide

end Cavity
